import Mathlib

/-!
Verification of the vault encryption and secure-storage core of the
PasswordManagerMobile application (src/utils/crypto.ts, src/utils/storage.ts,
src/context/VaultContext.tsx, and the unlock screen).

Bytes are modeled as natural numbers.  External platform primitives (Web
Crypto PBKDF2 and AES-GCM, btoa/atob, TextEncoder/TextDecoder,
JSON.stringify/JSON.parse, the random source, the clock, SecureStore) are
modeled at their interface boundary: deterministic ideal functions with the
standard inverse and injectivity properties, while all the repository code
(slicing of the sealed blob, error mapping, the reducer and the operations
built on it, the password generator, the unlock screen flow) is translated
statement by statement from the source.
-/

namespace PasswordManager

/-- A byte of the model.  The source manipulates Uint8Array cells; widths
that matter (salt 32, IV 12) are tracked by explicit length hypotheses. -/
abbrev Byte := Nat

/-! ### Injective encodings used by the ideal models of external primitives -/

/-- Injective encoding of a list of naturals into one natural,
used to build the ideal authentication tag and the ideal serializer. -/
def encodeList : List Nat → Nat
  | [] => 0
  | x :: xs => Nat.pair x (encodeList xs) + 1

/-- Computable inverse of `encodeList`. -/
def decodeListN : Nat → List Nat
  | 0 => []
  | n + 1 => (Nat.unpair n).1 :: decodeListN (Nat.unpair n).2
decreasing_by exact Nat.lt_succ_of_le (Nat.unpair_right_le _)

theorem decodeListN_encodeList (l : List Nat) : decodeListN (encodeList l) = l := by
  induction l with
  | nil => simp [encodeList, decodeListN]
  | cons x xs ih => simp [encodeList, decodeListN, Nat.unpair_pair, ih]

theorem encodeList_injective : Function.Injective encodeList :=
  Function.LeftInverse.injective decodeListN_encodeList

/-- TextEncoder (external): a string as its list of code points.  UTF-8 is a
bijection between strings and their byte sequences; we use the code-point
sequence as the canonical byte sequence. -/
def strBytes (s : String) : List Byte := s.data.map Char.toNat

theorem char_toNat_injective : Function.Injective Char.toNat := by
  intro a b h
  rw [← Char.ofNat_toNat a, ← Char.ofNat_toNat b, h]

theorem strBytes_injective : Function.Injective strBytes := by
  intro s t h
  have hd : s.data = t.data := List.map_injective_iff.mpr char_toNat_injective h
  cases s; cases t; cases hd; rfl

/-- TextDecoder helper (external): turn a byte list back into characters,
failing when a byte is not a valid scalar value. -/
def decodeBytes : List Byte → Option (List Char)
  | [] => some []
  | b :: bs =>
    if _h : Nat.isValidChar b then
      match decodeBytes bs with
      | none => none
      | some cs => some (Char.ofNat b :: cs)
    else none

/-- TextDecoder (external): inverse of `strBytes`. -/
def strOfBytes (bs : List Byte) : Option String :=
  (decodeBytes bs).map fun cs => ⟨cs⟩

theorem decodeBytes_map_toNat (l : List Char) :
    decodeBytes (l.map Char.toNat) = some l := by
  induction l with
  | nil => rfl
  | cons c cs ih =>
    have hv : Nat.isValidChar (Char.toNat c) := c.valid
    simp only [List.map_cons, decodeBytes]
    rw [dif_pos hv, ih, Char.ofNat_toNat]

theorem strOfBytes_strBytes (s : String) : strOfBytes (strBytes s) = some s := by
  simp [strOfBytes, strBytes, decodeBytes_map_toNat]

/-- Injective encoding of a string into one natural. -/
def encodeStr (s : String) : Nat := encodeList (strBytes s)

theorem encodeStr_injective : Function.Injective encodeStr :=
  encodeList_injective.comp strBytes_injective

/-- Computable inverse of `encodeStr`. -/
def decodeStrN (n : Nat) : Option String := strOfBytes (decodeListN n)

theorem decodeStrN_encodeStr (s : String) : decodeStrN (encodeStr s) = some s := by
  simp [decodeStrN, encodeStr, decodeListN_encodeList, strOfBytes_strBytes]

/-! ### Key derivation and the AEAD codec (crypto.ts) -/

/-- CryptoUtils.SALT_LENGTH (crypto.ts line 5). -/
def SALT_LENGTH : Nat := 32
/-- CryptoUtils.IV_LENGTH (crypto.ts line 7). -/
def IV_LENGTH : Nat := 12

/-- The derived 256-bit AES key.  PBKDF2-SHA256 with 600000 iterations
(crypto.ts `deriveKey`) is an external Web Crypto primitive; it is
deterministic in (password, salt), and the ideal-KDF model keeps the pair
itself as the key, which captures determinism and collision freeness. -/
structure DerivedKey where
  password : String
  salt : List Byte
deriving DecidableEq

/-- CryptoUtils.deriveKey (crypto.ts lines 10-61), ideal-KDF model. -/
def deriveKey (password : String) (salt : List Byte) : DerivedKey :=
  ⟨password, salt⟩

/-- The 128-bit GCM authentication tag, ideal-cipher model: a value that
determines (key, nonce), so that verification succeeds exactly for the
key/nonce pair that produced it. -/
def gcmTag (key : DerivedKey) (iv : List Byte) : Byte :=
  Nat.pair (encodeStr key.password) (Nat.pair (encodeList key.salt) (encodeList iv))

theorem gcmTag_inj {k k' : DerivedKey} {iv iv' : List Byte}
    (h : gcmTag k iv = gcmTag k' iv') : k = k' ∧ iv = iv' := by
  unfold gcmTag at h
  rcases Nat.pair_eq_pair.mp h with ⟨h1, h2⟩
  rcases Nat.pair_eq_pair.mp h2 with ⟨h3, h4⟩
  refine ⟨?_, encodeList_injective h4⟩
  cases k; cases k'
  simp only at h1 h3
  exact congrArg₂ DerivedKey.mk (encodeStr_injective h1) (encodeList_injective h3)

/-- crypto.subtle.encrypt with AES-GCM (external), ideal model: the
ciphertext is the plaintext followed by the authentication tag. -/
def aesGcmEncrypt (key : DerivedKey) (iv : List Byte) (pt : List Byte) : List Byte :=
  pt ++ [gcmTag key iv]

/-- crypto.subtle.decrypt with AES-GCM (external), ideal model: succeeds
exactly when the trailing tag verifies against (key, iv). -/
def aesGcmDecrypt (key : DerivedKey) (iv : List Byte) (ct : List Byte) : Option (List Byte) :=
  if ct.getLast? = some (gcmTag key iv) then some ct.dropLast else none

/-- CryptoUtils.encryptData (crypto.ts lines 63-141).  The random salt and IV
produced by crypto.getRandomValues are passed in as arguments (the random
source is external).  btoa is an external bijection between byte sequences
and base64 strings and its inverse atob is applied first by decryptData, so
the sealed blob is modeled as the byte sequence itself. -/
def encryptData (data : String) (password : String) (salt iv : List Byte) : List Byte :=
  let dataBuffer := strBytes data
  let key := deriveKey password salt
  let encrypted := aesGcmEncrypt key iv dataBuffer
  salt ++ (iv ++ encrypted)

/-- The single error raised by decryptData (crypto.ts line 171). -/
def decryptErrMsg : String := "Decryption failed - invalid password or corrupted data"

/-- CryptoUtils.decryptData (crypto.ts lines 143-173): split the blob at the
fixed offsets 32 and 44, re-derive the key from the embedded salt, decrypt;
every failure in the try block is caught and surfaces as `decryptErrMsg`. -/
def decryptData (encryptedData : List Byte) (password : String) : Except String String :=
  let combined := encryptedData
  let salt := combined.take SALT_LENGTH
  let iv := (combined.drop SALT_LENGTH).take IV_LENGTH
  let encrypted := combined.drop (SALT_LENGTH + IV_LENGTH)
  let key := deriveKey password salt
  match aesGcmDecrypt key iv encrypted with
  | none => .error decryptErrMsg
  | some pt =>
    match strOfBytes pt with
    | none => .error decryptErrMsg
    | some s => .ok s

/-! ### Password generator (crypto.ts lines 175-218) -/

def lowercaseChars : String := "abcdefghijklmnopqrstuvwxyz"
def uppercaseChars : String := "ABCDEFGHIJKLMNOPQRSTUVWXYZ"
def digitChars : String := "0123456789"
/-- The fixed symbol string of generateSecurePassword (crypto.ts line 198). -/
def symbolChars : String := "!@#$%^&*()_+-=[]\x7b\x7d|;:,.<>?"

/-- The charset built by generateSecurePassword for the given flags, in the
order of the source: lowercase, uppercase, numbers, symbols. -/
def charsetFor (includeSymbols includeNumbers includeUppercase includeLowercase : Bool) : String :=
  (if includeLowercase then lowercaseChars else "") ++
  ((if includeUppercase then uppercaseChars else "") ++
  ((if includeNumbers then digitChars else "") ++
  (if includeSymbols then symbolChars else "")))

/-- The charsetSize counter of generateSecurePassword: note the source adds
27 for the symbol class (crypto.ts line 199). -/
def charsetSizeFor (includeSymbols includeNumbers includeUppercase includeLowercase : Bool) : Nat :=
  (if includeLowercase then 26 else 0) + (if includeUppercase then 26 else 0) +
  (if includeNumbers then 10 else 0) + (if includeSymbols then 27 else 0)

/-- CryptoUtils.generateSecurePassword.  The crypto.getRandomValues bytes are
passed in as `randomBytes` (external random source); the source fills an
array of exactly `length` bytes.  The source returns
pair password, entropy with entropy = length * Math.log2(charsetSize); we
return the charsetSize used and the theorems express the reported entropy as
its real-number value `length * Real.logb 2 charsetSize`. -/
def generateSecurePassword (length : Nat)
    (includeSymbols includeNumbers includeUppercase includeLowercase : Bool)
    (randomBytes : List Byte) : Except String (String × Nat) :=
  let charset := charsetFor includeSymbols includeNumbers includeUppercase includeLowercase
  let charsetSize := charsetSizeFor includeSymbols includeNumbers includeUppercase includeLowercase
  if charset = "" then
    .error "At least one character type must be selected"
  else
    let array := randomBytes.take length
    let password : String := ⟨array.map fun b => charset.data.getD (b % charset.data.length) 'a'⟩
    .ok (password, charsetSize)

/-! ### Vault data model (types.ts) and serialization -/

/-- PasswordEntry (types.ts). -/
structure PasswordEntry where
  id : String
  site : String
  username : String
  password : String
  createdAt : String
  updatedAt : String
deriving DecidableEq

/-- The plaintext container sealed by storeEncryptedVault (storage.ts
lines 65-69): entries, lastModified, version. -/
structure VaultData where
  entries : List PasswordEntry
  lastModified : String
  version : String
deriving DecidableEq

def encodeEntry (e : PasswordEntry) : Nat :=
  encodeList [encodeStr e.id, encodeStr e.site, encodeStr e.username,
    encodeStr e.password, encodeStr e.createdAt, encodeStr e.updatedAt]

def decodeEntry (n : Nat) : Option PasswordEntry :=
  match decodeListN n with
  | [i, s, u, p, c, m] =>
    match decodeStrN i, decodeStrN s, decodeStrN u, decodeStrN p, decodeStrN c, decodeStrN m with
    | some i', some s', some u', some p', some c', some m' => some ⟨i', s', u', p', c', m'⟩
    | _, _, _, _, _, _ => none
  | _ => none

theorem decodeEntry_encodeEntry (e : PasswordEntry) : decodeEntry (encodeEntry e) = some e := by
  simp [decodeEntry, encodeEntry, decodeListN_encodeList, decodeStrN_encodeStr]

def decodeEntryList : List Nat → Option (List PasswordEntry)
  | [] => some []
  | n :: ns =>
    match decodeEntry n, decodeEntryList ns with
    | some e, some es => some (e :: es)
    | _, _ => none

theorem decodeEntryList_map (l : List PasswordEntry) :
    decodeEntryList (l.map encodeEntry) = some l := by
  induction l with
  | nil => rfl
  | cons e es ih => simp [decodeEntryList, decodeEntry_encodeEntry e, ih]

def encodeVault (v : VaultData) : Nat :=
  encodeList [encodeList (v.entries.map encodeEntry), encodeStr v.lastModified,
    encodeStr v.version]

/-- JSON.stringify (external): modeled as an injective serialization of the
vault container into a string, with `parseVault` as the matching
JSON.parse.  Only the inverse property is relied upon by the repository
code. -/
def serializeVault (v : VaultData) : String :=
  ⟨List.replicate (encodeVault v) 'a'⟩

/-- JSON.parse of a vault container (external), inverse of `serializeVault`;
returns none where JSON.parse would throw. -/
def parseVault (s : String) : Option VaultData :=
  match decodeListN s.length with
  | [en, lm, ver] =>
    match decodeEntryList (decodeListN en), decodeStrN lm, decodeStrN ver with
    | some es, some l, some v => some ⟨es, l, v⟩
    | _, _, _ => none
  | _ => none

theorem parseVault_serializeVault (v : VaultData) :
    parseVault (serializeVault v) = some v := by
  have hlen : (serializeVault v).length = encodeVault v := by
    simp [serializeVault, String.length]
  simp [parseVault, hlen, encodeVault, decodeListN_encodeList, decodeEntryList_map,
    decodeStrN_encodeStr]

/-! ### SecureStorage (storage.ts) -/

/-- SecureStore (external): a durable map from string keys to stored blobs.
Modeled as an association list where `storeSet` prepends (overwrite
semantics, since `storeGet` takes the first match). -/
abbrev Store := List (String × List Byte)

def storeGet (st : Store) (k : String) : Option (List Byte) :=
  (st.find? fun kv => kv.1 == k).map fun kv => kv.2

def storeSet (st : Store) (k : String) (v : List Byte) : Store :=
  (k, v) :: st

/-- The storage key of the vault of a user: VAULT_PREFIX + username
(storage.ts lines 7 and 79). -/
def vaultKey (username : String) : String :=
  "password_manager_vault_" ++ username

/-- String.prototype.includes, used by the error mapping of
getEncryptedVault (storage.ts line 107). -/
def strIncludes (s pat : String) : Bool :=
  s.data.tails.any fun t => pat.data.isPrefixOf t

/-- SecureStorage.storeEncryptedVault (storage.ts lines 56-88): serialize
the container with lastModified = now and version "1.0", seal it under
masterPassword with the fresh salt and iv, and replace the stored blob
under the vault key of the user. -/
def storeEncryptedVault (st : Store) (username : String) (entries : List PasswordEntry)
    (masterPassword : String) (now : String) (salt iv : List Byte) : Store :=
  let vaultData : VaultData := ⟨entries, now, "1.0"⟩
  let serialized := serializeVault vaultData
  let encrypted := encryptData serialized masterPassword salt iv
  storeSet st (vaultKey username) encrypted

/-- SecureStorage.getEncryptedVault (storage.ts lines 90-112): absence of a
stored blob yields the empty entry list; a decryption failure is mapped to
"Invalid master password" when the inner message contains "Decryption
failed" and to "Failed to retrieve vault data" otherwise (the latter branch
also catches a JSON.parse failure). -/
def getEncryptedVault (st : Store) (username masterPassword : String) :
    Except String (List PasswordEntry) :=
  match storeGet st (vaultKey username) with
  | none => .ok []
  | some encrypted =>
    if encrypted.isEmpty then .ok []
    else
      match decryptData encrypted masterPassword with
      | .error e =>
        if strIncludes e "Decryption failed" then .error "Invalid master password"
        else .error "Failed to retrieve vault data"
      | .ok decrypted =>
        match parseVault decrypted with
        | none => .error "Failed to retrieve vault data"
        | some vaultData => .ok vaultData.entries

/-! ### Vault state machine (VaultContext.tsx) -/

/-- Partial update of an entry (Partial of PasswordEntry in TypeScript). -/
structure EntryUpdates where
  id : Option String := none
  site : Option String := none
  username : Option String := none
  password : Option String := none
  createdAt : Option String := none
  updatedAt : Option String := none

/-- The object spread `... entry, ... updates, updatedAt now` of the
UPDATE_ENTRY branch (VaultContext.tsx line 61): fields present in the update
win, and updatedAt is then overwritten with the current time. -/
def applyUpdates (e : PasswordEntry) (u : EntryUpdates) (now : String) : PasswordEntry :=
  { id := u.id.getD e.id
    site := u.site.getD e.site
    username := u.username.getD e.username
    password := u.password.getD e.password
    createdAt := u.createdAt.getD e.createdAt
    updatedAt := now }

/-- VaultState (types.ts). -/
structure VaultState where
  entries : List PasswordEntry
  isLocked : Bool
  masterPassword : Option String
deriving DecidableEq

/-- VaultAction (VaultContext.tsx lines 19-25).  UPDATE_ENTRY carries the
current time because the reducer reads the clock there. -/
inductive VaultAction where
  | unlockVault (entries : List PasswordEntry) (masterPassword : String)
  | lockVault
  | setEntries (entries : List PasswordEntry)
  | addEntry (entry : PasswordEntry)
  | updateEntry (id : String) (updates : EntryUpdates) (now : String)
  | deleteEntry (id : String)

/-- vaultReducer (VaultContext.tsx lines 27-73). -/
def vaultReducer (state : VaultState) (action : VaultAction) : VaultState :=
  match action with
  | .unlockVault entries masterPassword =>
    { state with entries := entries, isLocked := false, masterPassword := some masterPassword }
  | .lockVault =>
    { entries := [], isLocked := true, masterPassword := none }
  | .setEntries entries =>
    { state with entries := entries }
  | .addEntry entry =>
    { state with entries := state.entries ++ [entry] }
  | .updateEntry id updates now =>
    { state with entries := state.entries.map fun entry =>
        if entry.id == id then applyUpdates entry updates now else entry }
  | .deleteEntry id =>
    { state with entries := state.entries.filter fun entry => entry.id != id }

/-- initialState (VaultContext.tsx lines 75-79). -/
def initialState : VaultState := { entries := [], isLocked := true, masterPassword := none }

/-- saveVault (VaultContext.tsx lines 85-113): fails when no user is logged
in or the vault holds no master password; otherwise seals and stores the
current entries.  The fresh salt/iv of the inner encryptData call and the
clock are passed through. -/
def saveVault (st : Store) (currentUser : Option String) (s : VaultState)
    (now : String) (salt iv : List Byte) : Except String Store :=
  match currentUser with
  | none => .error "No user logged in"
  | some username =>
    match s.masterPassword with
    | none => .error "Vault is locked"
    | some mp => .ok (storeEncryptedVault st username s.entries mp now salt iv)

/-- unlockVault (VaultContext.tsx lines 115-133). -/
def unlockVaultOp (st : Store) (currentUser : Option String) (s : VaultState)
    (masterPassword : String) : Except String VaultState :=
  match currentUser with
  | none => .error "No user logged in"
  | some username =>
    match getEncryptedVault st username masterPassword with
    | .error e => .error e
    | .ok entries => .ok (vaultReducer s (.unlockVault entries masterPassword))

/-- lockVault (VaultContext.tsx lines 135-137). -/
def lockVaultOp (s : VaultState) : VaultState :=
  vaultReducer s .lockVault

/-- updateEntry (VaultContext.tsx lines 168-171): the dispatch lands first,
then saveVault runs on the updated state; the in-memory state change
persists even when saveVault fails, so the operation returns the new state
together with the outcome of the save. -/
def updateEntryOp (st : Store) (currentUser : Option String) (s : VaultState)
    (id : String) (updates : EntryUpdates) (now : String) (salt iv : List Byte) :
    VaultState × Except String Store :=
  let s' := vaultReducer s (.updateEntry id updates now)
  (s', saveVault st currentUser s' now salt iv)

/-- deleteEntry (VaultContext.tsx lines 173-176). -/
def deleteEntryOp (st : Store) (currentUser : Option String) (s : VaultState)
    (id : String) (now : String) (salt iv : List Byte) :
    VaultState × Except String Store :=
  let s' := vaultReducer s (.deleteEntry id)
  (s', saveVault st currentUser s' now salt iv)

/-- changeMasterPassword (VaultContext.tsx lines 188-205): requires a logged
in user and that oldPassword equals the master password of the session, else
throws without touching anything; on success re-seals the current entries
under newPassword and dispatches UNLOCK_VAULT with the new password. -/
def changeMasterPasswordOp (st : Store) (currentUser : Option String) (s : VaultState)
    (oldPassword newPassword : String) (now : String) (salt iv : List Byte) :
    Except String (Store × VaultState) :=
  match currentUser with
  | none => .error "Invalid current master password"
  | some username =>
    if s.masterPassword = some oldPassword then
      .ok (storeEncryptedVault st username s.entries newPassword now salt iv,
        vaultReducer s (.unlockVault s.entries newPassword))
    else .error "Invalid current master password"

/-- The locked-or-unlocked invariant of the spec: either fully locked (no
master secret, no entries) or fully unlocked (master secret present). -/
def VaultInv (s : VaultState) : Prop :=
  (s.isLocked = true ∧ s.masterPassword = none ∧ s.entries = []) ∨
  (s.isLocked = false ∧ ∃ m, s.masterPassword = some m)

/-! ### Unlock screen lockout flow (UnlockScreen, handleUnlock) -/

/-- Which screen the navigation currently shows around the unlock flow. -/
inductive Screen where
  | unlock
  | vault
  | login
deriving DecidableEq

/-- The component state of the unlock screen that the lockout policy lives
in: the attempts counter plus the current screen. -/
structure UnlockFlowState where
  attempts : Nat
  screen : Screen
deriving DecidableEq

/-- Outcome of the awaited unlockVault call inside handleUnlock. -/
inductive UnlockOutcome where
  | ok
  | err

/-- handleUnlock of the unlock screen (src/unnamed/part_001 lines 59-91)
composed with handleLogout (lines 115-131): on success navigate to the
vault; on failure increment the counter; at three or more failures the
"Too Many Failed Attempts" alert routes its OK button to handleLogout,
which shows a second confirmation dialog — `userConfirmsLogout` is the
choice of the user there (Logout = true, Cancel = false); only the confirmed
path leaves the unlock flow. -/
def handleUnlock (s : UnlockFlowState) (outcome : UnlockOutcome)
    (userConfirmsLogout : Bool) : UnlockFlowState :=
  match outcome with
  | .ok => { s with screen := .vault }
  | .err =>
    let newAttempts := s.attempts + 1
    if 3 ≤ newAttempts then
      if userConfirmsLogout then { attempts := newAttempts, screen := .login }
      else { attempts := newAttempts, screen := .unlock }
    else { attempts := newAttempts, screen := .unlock }

/-! ### Generator validation flows in the screens -/

/-- validateSettings of PasswordGeneratorScreen: parseInt of the length
field is modeled as an Option (none = NaN); rejects lengths outside 4-128
and the empty class selection. -/
def validateSettings (lengthNum : Option Nat)
    (includeSymbols includeNumbers includeUppercase includeLowercase : Bool) : Option String :=
  match lengthNum with
  | none => some "Password length must be between 4 and 128 characters"
  | some n =>
    if n < 4 ∨ 128 < n then some "Password length must be between 4 and 128 characters"
    else if !includeSymbols && !includeNumbers && !includeUppercase && !includeLowercase then
      some "At least one character type must be selected"
    else none

/-- generatePassword of PasswordGeneratorScreen: on a validation error the
alert fires and no password is produced; otherwise the core generator runs
(its own throw is caught, producing no password). -/
def generatorScreenGenerate (lengthNum : Option Nat)
    (includeSymbols includeNumbers includeUppercase includeLowercase : Bool)
    (randomBytes : List Byte) : Option (String × Nat) :=
  match validateSettings lengthNum includeSymbols includeNumbers includeUppercase includeLowercase with
  | some _ => none
  | none =>
    match lengthNum with
    | none => none
    | some n =>
      match generateSecurePassword n includeSymbols includeNumbers includeUppercase includeLowercase randomBytes with
      | .error _ => none
      | .ok r => some r

/-- generatePassword of AddEntryScreen (lines 56-85): stricter length bound
8-128; on any rejection no password is set. -/
def addEntryGeneratePassword (lengthNum : Option Nat)
    (includeSymbols includeNumbers includeUppercase includeLowercase : Bool)
    (randomBytes : List Byte) : Option String :=
  match lengthNum with
  | none => none
  | some n =>
    if n < 8 ∨ 128 < n then none
    else if !includeSymbols && !includeNumbers && !includeUppercase && !includeLowercase then none
    else
      match generateSecurePassword n includeSymbols includeNumbers includeUppercase includeLowercase randomBytes with
      | .error _ => none
      | .ok r => some r.1

/-! ### Helper lemmas about the AEAD codec -/

theorem aesGcmDecrypt_aesGcmEncrypt (key : DerivedKey) (iv : List Byte) (pt : List Byte) :
    aesGcmDecrypt key iv (aesGcmEncrypt key iv pt) = some pt := by
  simp [aesGcmDecrypt, aesGcmEncrypt, List.getLast?_concat, List.dropLast_concat]

theorem encryptData_parts (p m : String) (salt iv : List Byte)
    (hs : salt.length = 32) (hiv : iv.length = 12) :
    (encryptData p m salt iv).take SALT_LENGTH = salt ∧
    ((encryptData p m salt iv).drop SALT_LENGTH).take IV_LENGTH = iv ∧
    (encryptData p m salt iv).drop (SALT_LENGTH + IV_LENGTH) =
      aesGcmEncrypt (deriveKey m salt) iv (strBytes p) := by
  have hdrop : (encryptData p m salt iv).drop SALT_LENGTH =
      iv ++ aesGcmEncrypt (deriveKey m salt) iv (strBytes p) := by
    show (salt ++ _).drop SALT_LENGTH = _
    rw [show SALT_LENGTH = salt.length from hs.symm, List.drop_left]
  refine ⟨?_, ?_, ?_⟩
  · show (salt ++ _).take SALT_LENGTH = salt
    rw [show SALT_LENGTH = salt.length from hs.symm, List.take_left]
  · rw [hdrop, show IV_LENGTH = iv.length from hiv.symm, List.take_left]
  · rw [show SALT_LENGTH + IV_LENGTH = SALT_LENGTH + IV_LENGTH from rfl,
      ← List.drop_drop, hdrop, show IV_LENGTH = iv.length from hiv.symm, List.drop_left]

theorem decryptData_encryptData (p m : String) (salt iv : List Byte)
    (hs : salt.length = 32) (hiv : iv.length = 12) :
    decryptData (encryptData p m salt iv) m = .ok p := by
  obtain ⟨h1, h2, h3⟩ := encryptData_parts p m salt iv hs hiv
  simp only [decryptData, h1, h2, h3, aesGcmDecrypt_aesGcmEncrypt, strOfBytes_strBytes]

theorem decryptData_encryptData_wrong (p m pw : String) (salt iv : List Byte)
    (hs : salt.length = 32) (hiv : iv.length = 12) (hne : pw ≠ m) :
    decryptData (encryptData p m salt iv) pw = .error decryptErrMsg := by
  obtain ⟨h1, h2, h3⟩ := encryptData_parts p m salt iv hs hiv
  simp only [decryptData, h1, h2, h3]
  have htag : ¬ (aesGcmEncrypt (deriveKey m salt) iv (strBytes p)).getLast? =
      some (gcmTag (deriveKey pw salt) iv) := by
    rw [aesGcmEncrypt, List.getLast?_concat]
    intro h
    have := (gcmTag_inj (Option.some.inj h)).1
    exact hne (congrArg DerivedKey.password this).symm
  rw [aesGcmDecrypt, if_neg htag]

/-- C1: decrypting the output of encryptData with the same password returns
exactly the original plaintext, for every plaintext and password (and every
salt/IV of the widths the source generates). -/
theorem roundtrip_encrypt_decrypt (p m : String) (salt iv : List Byte)
    (hs : salt.length = 32) (hiv : iv.length = 12) :
    decryptData (encryptData p m salt iv) m = .ok p :=
  decryptData_encryptData p m salt iv hs hiv

theorem roundtrip_encrypt_decrypt_witness :
    (List.replicate 32 0).length = 32 ∧ (List.replicate 12 0).length = 12 ∧
    decryptData (encryptData "secret" "master" (List.replicate 32 0) (List.replicate 12 0))
      "master" = .ok "secret" :=
  ⟨by simp, by simp,
    roundtrip_encrypt_decrypt "secret" "master" (List.replicate 32 0) (List.replicate 12 0)
      (by simp) (by simp)⟩

/-- C4: decryptData never distinguishes failure causes — every outcome is
either a successful plaintext or the one generic authentication error — and
a successful open of a genuine sealed blob returns the complete sealed
plaintext, never a partial one. -/
theorem decrypt_failure_generic :
    (∀ blob pw, (∃ s, decryptData blob pw = .ok s) ∨
      decryptData blob pw = .error decryptErrMsg) ∧
    (∀ p m pw : String, ∀ salt iv : List Byte, ∀ s : String,
      salt.length = 32 → iv.length = 12 →
      decryptData (encryptData p m salt iv) pw = .ok s → s = p) := by
  constructor
  · intro blob pw
    simp only [decryptData]
    rcases hd : aesGcmDecrypt (deriveKey pw (blob.take SALT_LENGTH))
        ((blob.drop SALT_LENGTH).take IV_LENGTH)
        (blob.drop (SALT_LENGTH + IV_LENGTH)) with _ | pt
    · exact Or.inr rfl
    · rcases hb : strOfBytes pt with _ | s
      · exact Or.inr (by simp [hb])
      · exact Or.inl ⟨s, by simp [hb]⟩
  · intro p m pw salt iv s hs hiv hok
    by_cases hpm : pw = m
    · subst hpm
      rw [decryptData_encryptData p pw salt iv hs hiv] at hok
      exact (Except.ok.inj hok).symm
    · rw [decryptData_encryptData_wrong p m pw salt iv hs hiv hpm] at hok
      exact absurd hok (by simp)

theorem decrypt_failure_generic_witness :
    (List.replicate 32 0).length = 32 ∧ (List.replicate 12 0).length = 12 ∧
    ((∃ s, decryptData [1, 2, 3] "pw" = .ok s) ∨
      decryptData [1, 2, 3] "pw" = .error decryptErrMsg) ∧
    (∀ s : String,
      decryptData (encryptData "data" "m" (List.replicate 32 0) (List.replicate 12 0))
        "pw" = .ok s → s = "data") :=
  ⟨by simp, by simp, decrypt_failure_generic.1 [1, 2, 3] "pw",
    fun s h => decrypt_failure_generic.2 "data" "m" "pw" (List.replicate 32 0)
      (List.replicate 12 0) s (by simp) (by simp) h⟩

/-- C3: getEncryptedVault on a username whose storage key holds no sealed
blob returns the empty entry list without an error, whatever the master
password. -/
theorem getEncryptedVault_absent (st : Store) (username masterPassword : String)
    (h : storeGet st (vaultKey username) = none) :
    getEncryptedVault st username masterPassword = .ok [] := by
  simp only [getEncryptedVault, h]

theorem getEncryptedVault_absent_witness :
    storeGet [] (vaultKey "alice") = none ∧
    getEncryptedVault [] "alice" "anything" = .ok [] :=
  ⟨rfl, getEncryptedVault_absent [] "alice" "anything" rfl⟩

/-! ### Helper lemmas about the persistence layer -/

theorem storeGet_storeSet_same (st : Store) (k : String) (v : List Byte) :
    storeGet (storeSet st k v) k = some v := by
  simp [storeGet, storeSet, List.find?]

theorem encryptData_isEmpty_false (p m : String) (salt iv : List Byte)
    (hs : salt.length = 32) :
    (encryptData p m salt iv).isEmpty = false := by
  cases salt with
  | nil => simp at hs
  | cons a l => rfl

theorem decryptErrMsg_includes : strIncludes decryptErrMsg "Decryption failed" = true := by
  decide

theorem getEncryptedVault_store_same (st : Store) (username : String)
    (entries : List PasswordEntry) (m now : String) (salt iv : List Byte)
    (hs : salt.length = 32) (hiv : iv.length = 12) :
    getEncryptedVault (storeEncryptedVault st username entries m now salt iv)
      username m = .ok entries := by
  simp only [getEncryptedVault, storeEncryptedVault, storeGet_storeSet_same,
    encryptData_isEmpty_false _ _ _ _ hs, Bool.false_eq_true, if_false,
    decryptData_encryptData _ _ _ _ hs hiv, parseVault_serializeVault]

theorem getEncryptedVault_store_wrong (st : Store) (username : String)
    (entries : List PasswordEntry) (m now pw : String) (salt iv : List Byte)
    (hs : salt.length = 32) (hiv : iv.length = 12) (hne : pw ≠ m) :
    getEncryptedVault (storeEncryptedVault st username entries m now salt iv)
      username pw = .error "Invalid master password" := by
  simp only [getEncryptedVault, storeEncryptedVault, storeGet_storeSet_same,
    encryptData_isEmpty_false _ _ _ _ hs, Bool.false_eq_true, if_false,
    decryptData_encryptData_wrong _ _ _ _ _ hs hiv hne, decryptErrMsg_includes, if_true]

/-- C5: two saves of the same entries under the same master password with
fresh randomness (different salts) store different sealed blobs, and both
blobs load back to the same container contents under that password. -/
theorem saveVault_freshness (st : Store) (username : String)
    (entries : List PasswordEntry) (m now₁ now₂ : String)
    (salt₁ iv₁ salt₂ iv₂ : List Byte)
    (hs₁ : salt₁.length = 32) (hs₂ : salt₂.length = 32)
    (hiv₁ : iv₁.length = 12) (hiv₂ : iv₂.length = 12)
    (hfresh : salt₁ ≠ salt₂) :
    storeGet (storeEncryptedVault st username entries m now₁ salt₁ iv₁) (vaultKey username) ≠
      storeGet (storeEncryptedVault st username entries m now₂ salt₂ iv₂) (vaultKey username) ∧
    getEncryptedVault (storeEncryptedVault st username entries m now₁ salt₁ iv₁)
      username m = .ok entries ∧
    getEncryptedVault (storeEncryptedVault st username entries m now₂ salt₂ iv₂)
      username m = .ok entries := by
  refine ⟨?_, getEncryptedVault_store_same st username entries m now₁ salt₁ iv₁ hs₁ hiv₁,
    getEncryptedVault_store_same st username entries m now₂ salt₂ iv₂ hs₂ hiv₂⟩
  intro h
  simp only [storeEncryptedVault, storeGet_storeSet_same, Option.some.injEq] at h
  apply hfresh
  have h₁ := (encryptData_parts (serializeVault ⟨entries, now₁, "1.0"⟩) m salt₁ iv₁ hs₁ hiv₁).1
  have h₂ := (encryptData_parts (serializeVault ⟨entries, now₂, "1.0"⟩) m salt₂ iv₂ hs₂ hiv₂).1
  rw [← h₁, ← h₂, h]

theorem saveVault_freshness_witness :
    (List.replicate 32 0).length = 32 ∧ (List.replicate 32 1).length = 32 ∧
    (List.replicate 12 0).length = 12 ∧ List.replicate 32 (0 : Nat) ≠ List.replicate 32 1 ∧
    (storeGet (storeEncryptedVault [] "bob" [] "m" "t1" (List.replicate 32 0) (List.replicate 12 0))
        (vaultKey "bob") ≠
      storeGet (storeEncryptedVault [] "bob" [] "m" "t2" (List.replicate 32 1) (List.replicate 12 0))
        (vaultKey "bob")) :=
  ⟨by simp, by simp, by simp, by decide,
    (saveVault_freshness [] "bob" [] "m" "t1" "t2" (List.replicate 32 0) (List.replicate 12 0)
      (List.replicate 32 1) (List.replicate 12 0) (by simp) (by simp) (by simp) (by simp)
      (by decide)).1⟩

/-- C6: the locked-or-unlocked invariant holds initially and is preserved by
every vault operation performed in its valid state — unlocking, locking
(which unconditionally yields the fully locked state, discarding entries
and key material), and the three mutations, which the state machine only
performs while unlocked. -/
theorem vault_state_invariant :
    VaultInv initialState ∧
    (∀ (s : VaultState) (entries : List PasswordEntry) (m : String),
      VaultInv (vaultReducer s (.unlockVault entries m))) ∧
    (∀ s : VaultState, vaultReducer s .lockVault =
      { entries := [], isLocked := true, masterPassword := none }) ∧
    (∀ s : VaultState, VaultInv (vaultReducer s .lockVault)) ∧
    (∀ (s : VaultState) (e : PasswordEntry), VaultInv s → s.isLocked = false →
      VaultInv (vaultReducer s (.addEntry e))) ∧
    (∀ (s : VaultState) (id : String) (u : EntryUpdates) (now : String),
      VaultInv s → s.isLocked = false →
      VaultInv (vaultReducer s (.updateEntry id u now))) ∧
    (∀ (s : VaultState) (id : String), VaultInv s → s.isLocked = false →
      VaultInv (vaultReducer s (.deleteEntry id))) := by
  have hmut : ∀ (s : VaultState) (entries : List PasswordEntry),
      VaultInv s → s.isLocked = false →
      VaultInv { s with entries := entries } := by
    intro s entries hinv hunlocked
    rcases hinv with ⟨hlock, _, _⟩ | ⟨_, m, hm⟩
    · rw [hunlocked] at hlock; exact absurd hlock (by simp)
    · exact Or.inr ⟨hunlocked, m, hm⟩
  refine ⟨Or.inl ⟨rfl, rfl, rfl⟩, ?_, fun _ => rfl, fun _ => Or.inl ⟨rfl, rfl, rfl⟩,
    ?_, ?_, ?_⟩
  · intro s entries m
    exact Or.inr ⟨rfl, m, rfl⟩
  · intro s e hinv hunlocked
    exact hmut s _ hinv hunlocked
  · intro s id u now hinv hunlocked
    exact hmut s _ hinv hunlocked
  · intro s id hinv hunlocked
    exact hmut s _ hinv hunlocked

theorem vault_state_invariant_witness :
    VaultInv { entries := [], isLocked := false, masterPassword := some "m" } ∧
    ({ entries := [], isLocked := false, masterPassword := some "m" } : VaultState).isLocked
      = false ∧
    VaultInv (vaultReducer { entries := [], isLocked := false, masterPassword := some "m" }
      (.addEntry ⟨"i", "s", "u", "p", "c", "d"⟩)) :=
  ⟨Or.inr ⟨rfl, "m", rfl⟩, rfl,
    vault_state_invariant.2.2.2.2.1 { entries := [], isLocked := false, masterPassword := some "m" }
      ⟨"i", "s", "u", "p", "c", "d"⟩ (Or.inr ⟨rfl, "m", rfl⟩) rfl⟩

/-- C7: changeMasterPassword fails (changing nothing) unless a user is
logged in and the old password equals the session master secret; success
implies the old password matched; and on success, with the vault unlocked,
it re-seals the current entries under the new password in place — the state
stays unlocked with the new secret and the same entries, a subsequent load
with the new password succeeds, and a load with the old password fails. -/
theorem changeMasterPassword_correct :
    (∀ (st : Store) (cu : Option String) (s : VaultState) (old new now : String)
      (salt iv : List Byte), s.masterPassword ≠ some old →
      changeMasterPasswordOp st cu s old new now salt iv =
        .error "Invalid current master password") ∧
    (∀ (st : Store) (s : VaultState) (old new now : String) (salt iv : List Byte),
      changeMasterPasswordOp st none s old new now salt iv =
        .error "Invalid current master password") ∧
    (∀ (st : Store) (u : String) (s : VaultState) (old new now : String)
      (salt iv : List Byte) (r : Store × VaultState),
      changeMasterPasswordOp st (some u) s old new now salt iv = .ok r →
      s.masterPassword = some old) ∧
    (∀ (st : Store) (u : String) (s : VaultState) (old new now : String)
      (salt iv : List Byte),
      s.masterPassword = some old → salt.length = 32 → iv.length = 12 → old ≠ new →
      ∃ st' s', changeMasterPasswordOp st (some u) s old new now salt iv = .ok (st', s') ∧
        s'.entries = s.entries ∧ s'.isLocked = false ∧ s'.masterPassword = some new ∧
        getEncryptedVault st' u new = .ok s.entries ∧
        getEncryptedVault st' u old = .error "Invalid master password") := by
  refine ⟨?_, ?_, ?_, ?_⟩
  · intro st cu s old new now salt iv hne
    cases cu with
    | none => rfl
    | some u => simp only [changeMasterPasswordOp, if_neg hne]
  · intro st s old new now salt iv
    rfl
  · intro st u s old new now salt iv r hok
    by_contra hne
    rw [show changeMasterPasswordOp st (some u) s old new now salt iv =
        .error "Invalid current master password" from by
      simp only [changeMasterPasswordOp, if_neg hne]] at hok
    exact absurd hok (by simp)
  · intro st u s old new now salt iv hmp hs hiv hne
    refine ⟨storeEncryptedVault st u s.entries new now salt iv,
      vaultReducer s (.unlockVault s.entries new), ?_, rfl, rfl, rfl,
      getEncryptedVault_store_same st u s.entries new now salt iv hs hiv,
      getEncryptedVault_store_wrong st u s.entries new now old salt iv hs hiv hne⟩
    simp only [changeMasterPasswordOp, if_pos hmp]

theorem changeMasterPassword_correct_witness :
    ({ entries := [], isLocked := false, masterPassword := some "old" } : VaultState).masterPassword
      = some "old" ∧
    (List.replicate 32 0).length = 32 ∧ (List.replicate 12 0).length = 12 ∧
    ("old" : String) ≠ "new" ∧
    (∃ st' s', changeMasterPasswordOp [] (some "alice")
        { entries := [], isLocked := false, masterPassword := some "old" }
        "old" "new" "t" (List.replicate 32 0) (List.replicate 12 0) = .ok (st', s') ∧
      s'.entries = [] ∧ s'.isLocked = false ∧ s'.masterPassword = some "new" ∧
      getEncryptedVault st' "alice" "new" = .ok [] ∧
      getEncryptedVault st' "alice" "old" = .error "Invalid master password") :=
  ⟨rfl, by simp, by simp, by decide,
    changeMasterPassword_correct.2.2.2 [] "alice"
      { entries := [], isLocked := false, masterPassword := some "old" }
      "old" "new" "t" (List.replicate 32 0) (List.replicate 12 0)
      rfl (by simp) (by simp) (by decide)⟩

/-! ### Helper lemmas for the missing-id mutations -/

theorem map_update_of_no_match (l : List PasswordEntry) (id : String)
    (u : EntryUpdates) (now : String) (h : ∀ e ∈ l, e.id ≠ id) :
    (l.map fun entry => if entry.id == id then applyUpdates entry u now else entry) = l := by
  induction l with
  | nil => rfl
  | cons e es ih =>
    have he : (e.id == id) = false := by
      simpa using h e (List.mem_cons_self e es)
    simp only [List.map_cons, he, Bool.false_eq_true, if_false, List.cons.injEq, true_and]
    exact ih fun x hx => h x (List.mem_cons_of_mem e hx)

theorem filter_delete_of_no_match (l : List PasswordEntry) (id : String)
    (h : ∀ e ∈ l, e.id ≠ id) :
    (l.filter fun entry => entry.id != id) = l := by
  induction l with
  | nil => rfl
  | cons e es ih =>
    have he : (e.id != id) = true := by
      simpa using h e (List.mem_cons_self e es)
    simp only [List.filter_cons, he, if_true, List.cons.injEq, true_and]
    exact ih fun x hx => h x (List.mem_cons_of_mem e hx)

/-- C10: with the vault unlocked, updateEntry and deleteEntry on an id that
matches no entry leave the entry list unchanged, still run saveVault
(re-persisting the unchanged list under the vault key of the user), and report
no error — the caller cannot tell that the id did not exist. -/
theorem update_delete_missing_id (st : Store) (u : String) (s : VaultState)
    (m id : String) (updates : EntryUpdates) (now : String) (salt iv : List Byte)
    (hmp : s.masterPassword = some m)
    (hid : ∀ e ∈ s.entries, e.id ≠ id) :
    (updateEntryOp st (some u) s id updates now salt iv).1.entries = s.entries ∧
    (updateEntryOp st (some u) s id updates now salt iv).2 =
      .ok (storeSet st (vaultKey u)
        (encryptData (serializeVault ⟨s.entries, now, "1.0"⟩) m salt iv)) ∧
    (deleteEntryOp st (some u) s id now salt iv).1.entries = s.entries ∧
    (deleteEntryOp st (some u) s id now salt iv).2 =
      .ok (storeSet st (vaultKey u)
        (encryptData (serializeVault ⟨s.entries, now, "1.0"⟩) m salt iv)) := by
  have hupd := map_update_of_no_match s.entries id updates now hid
  have hdel := filter_delete_of_no_match s.entries id hid
  refine ⟨?_, ?_, ?_, ?_⟩
  · simp only [updateEntryOp, vaultReducer, hupd]
  · simp only [updateEntryOp, vaultReducer, hupd, saveVault, hmp, storeEncryptedVault]
  · simp only [deleteEntryOp, vaultReducer, hdel]
  · simp only [deleteEntryOp, vaultReducer, hdel, saveVault, hmp, storeEncryptedVault]

theorem update_delete_missing_id_witness :
    (VaultState.mk [PasswordEntry.mk "a" "s" "u" "p" "c" "d"] false
        (some "m")).masterPassword = some "m" ∧
    (∀ e ∈ (VaultState.mk [PasswordEntry.mk "a" "s" "u" "p" "c" "d"] false
        (some "m")).entries, e.id ≠ "zzz") ∧
    (updateEntryOp [] (some "alice")
      (VaultState.mk [PasswordEntry.mk "a" "s" "u" "p" "c" "d"] false (some "m"))
      "zzz" (EntryUpdates.mk none none none none none none) "t" [] []).1.entries =
      [PasswordEntry.mk "a" "s" "u" "p" "c" "d"] :=
  ⟨rfl, by decide,
    (update_delete_missing_id [] "alice"
      (VaultState.mk [PasswordEntry.mk "a" "s" "u" "p" "c" "d"] false (some "m"))
      "m" "zzz" (EntryUpdates.mk none none none none none none) "t" [] []
      rfl (by decide)).1⟩

/-- C2 (amended): with all four classes enabled and length 16, the generator
returns a password of length exactly 16 drawn from the union charset it
actually builds — which has 88 characters, the fixed symbol string
contributing 26 — while the charsetSize counter it reports entropy from is
89 (the source adds 27 for the symbol class), so the reported entropy is
16 * log2(89), about 103.7 bits. -/
theorem generate_all_classes_16 (rb : List Byte) (h : rb.length = 16) :
    ∃ pw : String,
      generateSecurePassword 16 true true true true rb = .ok (pw, 89) ∧
      pw.length = 16 ∧
      (∀ c ∈ pw.data, c ∈ (charsetFor true true true true).data) ∧
      (charsetFor true true true true).data.length = 88 ∧
      charsetSizeFor true true true true = 89 := by
  refine ⟨⟨(rb.take 16).map fun b => (charsetFor true true true true).data.getD
      (b % (charsetFor true true true true).data.length) 'a'⟩, ?_, ?_, ?_,
    by decide, by decide⟩
  · simp only [generateSecurePassword]
    rw [if_neg (by decide : ¬ charsetFor true true true true = "")]
    rfl
  · show ((rb.take 16).map _).length = 16
    rw [List.length_map, List.length_take, h, Nat.min_self]
  · intro c hc
    rw [List.mem_map] at hc
    obtain ⟨b, _, rfl⟩ := hc
    have hlt : b % (charsetFor true true true true).data.length <
        (charsetFor true true true true).data.length :=
      Nat.mod_lt _ (by decide)
    rw [List.getD_eq_getElem _ _ hlt]
    exact List.getElem_mem hlt

theorem generate_all_classes_16_witness :
    (List.replicate 16 7).length = 16 ∧
    (∃ pw : String,
      generateSecurePassword 16 true true true true (List.replicate 16 7) = .ok (pw, 89) ∧
      pw.length = 16 ∧
      (∀ c ∈ pw.data, c ∈ (charsetFor true true true true).data) ∧
      (charsetFor true true true true).data.length = 88 ∧
      charsetSizeFor true true true true = 89) :=
  ⟨by simp, generate_all_classes_16 (List.replicate 16 7) (by simp)⟩

/-- C2 counterexample: on a concrete random input the generator succeeds,
but its reported entropy, length * log2(charsetSize) with the returned
charsetSize, is not 16 * log2(95), and the union charset it draws from does
not have 95 characters. -/
theorem generate_entropy_not_as_claimed :
    ∃ pr : String × Nat,
      generateSecurePassword 16 true true true true (List.replicate 16 0) = .ok pr ∧
      (16 : ℝ) * Real.logb 2 (pr.2 : ℝ) ≠ 16 * Real.logb 2 95 ∧
      (charsetFor true true true true).data.length ≠ 95 := by
  refine ⟨("aaaaaaaaaaaaaaaa", 89), by rfl, ?_, by decide⟩
  have hlt : Real.logb 2 (89 : ℝ) < Real.logb 2 95 :=
    Real.logb_lt_logb (by norm_num) (by norm_num) (by norm_num)
  push_cast
  intro heq
  nlinarith

/-- C8: the generator core fails with the validation error when no character
class is selected, and both screen flows refuse out-of-range lengths (4-128
in the generator screen, 8-128 in the entry-creation flow) and the empty
class selection, producing no password in every such case. -/
theorem generator_validation :
    (∀ (len : Nat) (rb : List Byte),
      generateSecurePassword len false false false false rb =
        .error "At least one character type must be selected") ∧
    (∀ (sym num up low : Bool) (rb : List Byte),
      generatorScreenGenerate none sym num up low rb = none) ∧
    (∀ (n : Nat) (sym num up low : Bool) (rb : List Byte), n < 4 ∨ 128 < n →
      generatorScreenGenerate (some n) sym num up low rb = none) ∧
    (∀ (ln : Option Nat) (rb : List Byte),
      generatorScreenGenerate ln false false false false rb = none) ∧
    (∀ (n : Nat) (sym num up low : Bool) (rb : List Byte), n < 8 ∨ 128 < n →
      addEntryGeneratePassword (some n) sym num up low rb = none) ∧
    (∀ (ln : Option Nat) (rb : List Byte),
      addEntryGeneratePassword ln false false false false rb = none) := by
  refine ⟨?_, ?_, ?_, ?_, ?_, ?_⟩
  · intro len rb
    rfl
  · intro sym num up low rb
    rfl
  · intro n sym num up low rb hr
    simp only [generatorScreenGenerate, validateSettings, if_pos hr]
  · intro ln rb
    cases ln with
    | none => rfl
    | some n =>
      simp only [generatorScreenGenerate, validateSettings]
      split
      · rfl
      · rfl
  · intro n sym num up low rb hr
    simp only [addEntryGeneratePassword, if_pos hr]
  · intro ln rb
    cases ln with
    | none => rfl
    | some n =>
      simp only [addEntryGeneratePassword]
      split
      · rfl
      · rfl

theorem generator_validation_witness :
    ((2 : Nat) < 4 ∨ 128 < 2) ∧
    generatorScreenGenerate (some 2) true true true true [] = none ∧
    ((200 : Nat) < 8 ∨ 128 < 200) ∧
    addEntryGeneratePassword (some 200) true true true true [] = none :=
  ⟨Or.inl (by decide),
    generator_validation.2.2.1 2 true true true true [] (Or.inl (by decide)),
    Or.inr (by decide),
    generator_validation.2.2.2.2.1 200 true true true true [] (Or.inr (by decide))⟩

/-- C9: three consecutive failed unlock attempts do NOT force an
unconditional session teardown.  Reaching the threshold routes through
handleLogout, whose confirmation dialog the user can cancel: after three
failures with the logout cancelled the flow is still on the unlock screen
with the counter at 3, a fourth wrong guess is processed (counter 4), and
only a confirmed logout leaves the flow — contradicting the unconditional
teardown the lockout alert itself announces. -/
theorem lockout_teardown_cancellable :
    handleUnlock (handleUnlock (handleUnlock (UnlockFlowState.mk 0 Screen.unlock)
        UnlockOutcome.err false) UnlockOutcome.err false) UnlockOutcome.err false =
      UnlockFlowState.mk 3 Screen.unlock ∧
    handleUnlock (UnlockFlowState.mk 3 Screen.unlock) UnlockOutcome.err false =
      UnlockFlowState.mk 4 Screen.unlock ∧
    handleUnlock (UnlockFlowState.mk 3 Screen.unlock) UnlockOutcome.err true =
      UnlockFlowState.mk 4 Screen.login := by
  decide

end PasswordManager
